import Mathlib

/-!
Shallow embedding of the MkvBatchMux backend (src/src-tauri/src/main.rs):
the track selector, the mkvmerge command synthesizer, the mkvpropedit
fast-path builder, the job scheduler's per-job path decision, the exit-code
policy, the progress parser and the preview command-line quoting.

Machine integers are modelled as `Nat`/`Int`.  The only floating-point data
the synthesizer reads (`delay: Option<f64>` on external files and overrides)
is represented by its `i64` millisecond image `(delay * 1000.0) as i64`,
since every use in the source immediately converts it that way; no claim
depends on float rounding.  Filesystem and process effects (probing, tool
availability, file existence) are passed in as explicit parameters.
-/

namespace MkvBatchMux


/-- One track of a container, Rust struct `TrackInfo` (main.rs:105).
The `bitrate` field is omitted: display-only, never read by the
synthesizer or scheduler. -/
structure TrackInfo where
  id : String
  track_type : String
  codec : Option String := none
  language : Option String := none
  name : Option String := none
  is_default : Option Bool := none
  is_forced : Option Bool := none
  action : Option String := none
deriving DecidableEq

/-- Per-track override record, Rust struct `TrackOverride` (main.rs:173).
`delay_ms` is the millisecond image of the f64 `delay` field. -/
structure TrackOverride where
  language : Option String := none
  delay_ms : Option Int := none
  track_name : Option String := none
deriving DecidableEq

/-- An external audio/subtitle/chapter/attachment file, Rust struct
`ExternalFileInfo` (main.rs:133).  `track_overrides` (a HashMap keyed by
stringified track id) is modelled as an association list; `delay_ms` is the
millisecond image of the f64 `delay`. -/
structure ExternalFileInfo where
  id : String := ""
  name : String := ""
  path : String
  file_type : String := ""
  source : Option String := none
  language : Option String := none
  track_name : Option String := none
  delay_ms : Option Int := none
  is_default : Option Bool := none
  is_forced : Option Bool := none
  mux_after : Option String := none
  matched_video_id : Option String := none
  size : Option Nat := none
  duration : Option String := none
  track_id : Option Nat := none
  tracks : List TrackInfo := []
  included_track_ids : Option (List Nat) := none
  include_subtitles : Option Bool := none
  included_subtitle_track_ids : Option (List Nat) := none
  track_overrides : List (String × TrackOverride) := []
  apply_language : Bool := false
deriving DecidableEq

/-- The primary container of a job, Rust struct `VideoFileInfo`
(main.rs:121).  The f64 `fps` field is omitted: display-only. -/
structure VideoFileInfo where
  id : String := ""
  name : String := ""
  path : String
  size : Nat := 0
  duration : Option String := none
  status : String := ""
  tracks : List TrackInfo := []
deriving DecidableEq

/-- A muxing job, Rust struct `MuxJobRequest` (main.rs:223). -/
structure MuxJobRequest where
  id : String := ""
  video : VideoFileInfo
  audios : List ExternalFileInfo := []
  subtitles : List ExternalFileInfo := []
  chapters : List ExternalFileInfo := []
  attachments : List ExternalFileInfo := []
deriving DecidableEq

/-- Global muxing settings, Rust struct `MuxSettings` (main.rs:199). -/
structure MuxSettings where
  destination_dir : String := ""
  overwrite_source : Bool := false
  add_crc : Bool := false
  remove_old_crc : Bool := false
  keep_log_file : Bool := false
  abort_on_errors : Bool := false
  max_parallel_jobs : Option Nat := none
  only_keep_audios_enabled : Bool := false
  only_keep_subtitles_enabled : Bool := false
  only_keep_audio_languages : List String := []
  only_keep_subtitle_languages : List String := []
  discard_old_chapters : Bool := false
  discard_old_attachments : Bool := false
  allow_duplicate_attachments : Bool := false
  attachments_expert_mode : Bool := false
  remove_global_tags : Bool := false
  make_audio_default_language : Option String := none
  make_subtitle_default_language : Option String := none
  use_mkvpropedit : Bool := false
deriving DecidableEq

/-- Progress event pushed to the presentation layer, Rust struct
`MuxProgressEvent` (main.rs:259).  The Rust `progress` field has type `u8`;
it is modelled as `Nat` (the parser below never produces a value above
255, mirroring `u8` parsing). -/
structure MuxProgressEvent where
  job_id : String
  status : String
  progress : Nat
  message : Option String := none
  size_after : Option Nat := none
  error_message : Option String := none
deriving DecidableEq

/-- Rust `str::trim()`: strip leading and trailing whitespace.  Defined on
the character list so that it evaluates inside the kernel; `Char.isWhitespace`
stands in for Rust's Unicode `White_Space` predicate (they agree on every
character these claims touch). -/
def rust_trim (s : String) : String :=
  String.mk (((s.data.dropWhile Char.isWhitespace).reverse.dropWhile
    Char.isWhitespace).reverse)

/-- Decimal parse of a nonempty all-digit character run. -/
def parse_nat_digits (cs : List Char) : Option Nat :=
  if cs ≠ [] ∧ cs.all (fun c => c.isDigit) then
    some (cs.foldl (fun acc c => acc * 10 + (c.toNat - 48)) 0)
  else none

/-- Rust `str::parse::<usize>()`: optional leading plus sign followed by at
least one ASCII digit (overflow is ignored; track ids are small). -/
def rust_parse_nat (s : String) : Option Nat :=
  match s.data with
  | '+' :: rest => parse_nat_digits rest
  | cs => parse_nat_digits cs

/-- Rust `parse_track_id` (main.rs:1143): parse the track's string id,
falling back to its positional index. -/
def parse_track_id (track : TrackInfo) (index : Nat) : Nat :=
  (rust_parse_nat track.id).getD index

/-- Rust `is_track_removed` (main.rs:1147). -/
def is_track_removed (track : TrackInfo) : Bool :=
  track.action == some "remove"

/-- Recursion core of `collect_track_ids_by_action`, carrying the
enumeration index. -/
def collect_track_ids_by_action_aux (ttype : String) :
    Nat → List TrackInfo → List Nat × Bool
  | _, [] => ([], false)
  | index, track :: rest =>
    let tail := collect_track_ids_by_action_aux ttype (index + 1) rest
    if track.track_type = ttype then
      if is_track_removed track then (tail.1, true)
      else (parse_track_id track index :: tail.1, tail.2)
    else tail

/-- Rust `collect_track_ids_by_action` (main.rs:1151): ids of the tracks of
the given kind that are not marked removed, plus a flag telling whether any
track of that kind was marked removed. -/
def collect_track_ids_by_action (tracks : List TrackInfo) (ttype : String) :
    List Nat × Bool :=
  collect_track_ids_by_action_aux ttype 0 tracks

/-- Recursion core of `track_type_ids`, carrying the enumeration index. -/
def track_type_ids_aux (ttype : String) : Nat → List TrackInfo → List Nat
  | _, [] => []
  | index, track :: rest =>
    let tail := track_type_ids_aux ttype (index + 1) rest
    if track.track_type = ttype then parse_track_id track index :: tail
    else tail

/-- The `type_ids` pass of `apply_track_selection` (main.rs:1178): ids of
every track of the given kind, removed or not. -/
def track_type_ids (tracks : List TrackInfo) (ttype : String) : List Nat :=
  track_type_ids_aux ttype 0 tracks

/-- Rust `intersect_ids` (main.rs:1167). -/
def intersect_ids (left right : List Nat) : List Nat :=
  left.filter (fun id => right.contains id)

/-- The `selected` list computed inside `apply_track_selection`
(main.rs:1189): action-pass result when some track of the kind is removed,
else all tracks of the kind; then intersected with the keep list. -/
def track_selection_selected (tracks : List TrackInfo) (ttype : String)
    (only_keep_ids : Option (List Nat)) : List Nat :=
  let pair := collect_track_ids_by_action tracks ttype
  let base := if pair.2 then pair.1 else track_type_ids tracks ttype
  match only_keep_ids with
  | some keep => intersect_ids base keep
  | none => base

/-- The disable-this-kind flag pushed by `apply_track_selection` when the
selection is empty (main.rs:1204). -/
def disable_track_flag (ttype : String) : Option String :=
  match ttype with
  | "audio" => some "--no-audio"
  | "subtitle" => some "--no-subtitles"
  | "video" => some "--no-video"
  | _ => none

/-- The selection flag pushed by `apply_track_selection` (main.rs:1213). -/
def select_track_flag (ttype : String) : Option String :=
  match ttype with
  | "audio" => some "--audio-tracks"
  | "subtitle" => some "--subtitle-tracks"
  | "video" => some "--video-tracks"
  | _ => none

/-- Arguments pushed by Rust `apply_track_selection` (main.rs:1171):
nothing when the container has no track of the kind, nothing when the
selection is a no-op, the disable flag when the selection is empty, else
the selection flag and the comma-joined id list. -/
def track_selection_args (tracks : List TrackInfo) (ttype : String)
    (only_keep_ids : Option (List Nat)) : List String :=
  let pair := collect_track_ids_by_action tracks ttype
  let type_ids := track_type_ids tracks ttype
  if type_ids.isEmpty then []
  else
    let selected := track_selection_selected tracks ttype only_keep_ids
    if selected.length = type_ids.length ∧ pair.2 = false ∧ only_keep_ids = none then []
    else if selected.isEmpty then
      match disable_track_flag ttype with
      | some flag => [flag]
      | none => []
    else
      match select_track_flag ttype with
      | some flag => [flag, String.intercalate "," (selected.map toString)]
      | none => []

/-- Rust `apply_track_selection` as seen by its caller: the pushes are an
append to the argument vector. -/
def apply_track_selection (args : List String) (tracks : List TrackInfo)
    (ttype : String) (only_keep_ids : Option (List Nat)) : List String :=
  args ++ track_selection_args tracks ttype only_keep_ids

/-- Rust `char::to_ascii_lowercase`. -/
def ascii_lower (c : Char) : Char :=
  if 'A' ≤ c ∧ c ≤ 'Z' then Char.ofNat (c.toNat + 32) else c

/-- Rust `str::eq_ignore_ascii_case`. -/
def eq_ignore_ascii_case (a b : String) : Bool :=
  a.data.map ascii_lower == b.data.map ascii_lower

/-- Recursion core of `collect_track_ids_by_language`, carrying the
enumeration index. -/
def collect_track_ids_by_language_aux (ttype : String) (languages : List String) :
    Nat → List TrackInfo → List Nat
  | _, [] => []
  | index, track :: rest =>
    let tail := collect_track_ids_by_language_aux ttype languages (index + 1) rest
    if track.track_type = ttype then
      match track.language with
      | some language =>
        if languages.any (fun lang => eq_ignore_ascii_case lang language) then
          parse_track_id track index :: tail
        else tail
      | none => tail
    else tail

/-- Rust `collect_track_ids_by_language` (main.rs:1124): ids of the tracks
of the given kind whose language case-insensitively matches one of the
given languages. -/
def collect_track_ids_by_language (tracks : List TrackInfo) (ttype : String)
    (languages : List String) : List Nat :=
  collect_track_ids_by_language_aux ttype languages 0 tracks

/-- One track object of the JSON document returned by `mkvmerge -J`:
its optional "type" string and its "id" as parsed by the id extraction in
`parse_external_track_ids_mkvmerge` (main.rs:765). -/
structure ProbedTrack where
  ptype : Option String := none
  pid : Option Nat := none
deriving DecidableEq

/-- The probing collaborator: Rust `get_mkvmerge_info` (main.rs:375)
composed with the "tracks"-array extraction; `none` models a failed probe,
and a JSON document without a "tracks" array is `some []`. -/
def MkvProbe : Type := String → Option (List ProbedTrack)

/-- Rust `parse_external_track_ids_mkvmerge` (main.rs:746): ids of the
probed tracks whose mkvmerge type string maps to the requested kind
("Audio", "Text" or "Video"). -/
def parse_external_track_ids_mkvmerge (tracks : List ProbedTrack)
    (track_type : String) : List Nat :=
  tracks.filterMap (fun track =>
    match track.ptype with
    | none => none
    | some ty =>
      let mapped := match ty with
        | "audio" => "Audio"
        | "subtitles" => "Text"
        | "video" => "Video"
        | _ => "Unknown"
      if mapped = track_type then track.pid else none)

/-- Track-id resolution for one external audio/subtitle file, mirroring the
two identical blocks of `build_mkvmerge_command` (main.rs:1374 and 1412)
up to the empty-fallback: `none` is the `continue` on an explicitly empty
selection, `some ids` the resolved candidate list. -/
def resolve_external_ids (probe : MkvProbe) (mkvType : String)
    (file : ExternalFileInfo) : Option (List Nat) :=
  match file.included_track_ids with
  | some ids => if ids.isEmpty then none else some ids
  | none =>
    match probe file.path with
    | some info =>
      let ids := parse_external_track_ids_mkvmerge info mkvType
      if 1 < ids.length then some ids
      else
        match file.track_id with
        | some id => some [id]
        | none => some ids
    | none =>
      match file.track_id with
      | some id => some [id]
      | none => some []

/-- The per-id cloning loop of `build_mkvmerge_command` (main.rs:1398 and
1436): one synthesized entry per resolved id, the first entry inheriting
the file-level default (when requested) and being the one that applies the
file-level language. -/
def expand_entries (file : ExternalFileInfo) (set_default_on_first : Bool) :
    Nat → List Nat → List (ExternalFileInfo × Nat)
  | _, [] => []
  | index, tid :: rest =>
    ({ file with
        track_id := some tid
        is_default := if set_default_on_first then some (index == 0) else file.is_default
        apply_language := index == 0 }, tid) ::
      expand_entries file set_default_on_first (index + 1) rest

/-- Synthesized entries for one external audio or subtitle file
(main.rs:1372-1445): resolved ids, empty list defaulting to id 0, then the
expansion loop. -/
def resolve_entries (probe : MkvProbe) (mkvType : String)
    (file : ExternalFileInfo) : List (ExternalFileInfo × Nat) :=
  match resolve_external_ids probe mkvType file with
  | none => []
  | some ids0 =>
    let ids := if ids0.isEmpty then [0] else ids0
    expand_entries file (file.is_default.getD false) 0 ids

/-- Subtitle entries pulled out of an external audio file
(main.rs:1447-1471).  In the source an explicitly empty
`included_subtitle_track_ids` and an empty resolved list both `continue`;
both cases end in the empty entry list here. -/
def resolve_subs_from_audio (probe : MkvProbe) (audio : ExternalFileInfo) :
    List (ExternalFileInfo × Nat) :=
  if audio.include_subtitles = some true then
    let ids := match audio.included_subtitle_track_ids with
      | some ids => ids
      | none =>
        match probe audio.path with
        | some info => parse_external_track_ids_mkvmerge info "Text"
        | none => []
    ids.map (fun tid =>
      ({ audio with
          track_id := some tid
          apply_language := false
          is_default := none
          is_forced := none }, tid))
  else []

/-- All synthesized external audio entries of a job, in source order. -/
def resolved_external_audios (job : MuxJobRequest) (probe : MkvProbe) :
    List (ExternalFileInfo × Nat) :=
  job.audios.flatMap (resolve_entries probe "Audio")

/-- All synthesized external subtitle entries of a job coming from the
subtitle list, in source order. -/
def resolved_external_subtitles (job : MuxJobRequest) (probe : MkvProbe) :
    List (ExternalFileInfo × Nat) :=
  job.subtitles.flatMap (resolve_entries probe "Text")

/-- All synthesized subtitle entries pulled out of external audio files. -/
def resolved_subtitles_from_audio (job : MuxJobRequest) (probe : MkvProbe) :
    List (ExternalFileInfo × Nat) :=
  job.audios.flatMap (resolve_subs_from_audio probe)

/-- Container-level strip flags (main.rs:1473-1481). -/
def strip_args (settings : MuxSettings) : List String :=
  (if settings.discard_old_chapters then ["--no-chapters"] else []) ++
  (if settings.discard_old_attachments then ["--no-attachments"] else []) ++
  (if settings.remove_global_tags then ["--no-global-tags"] else [])

/-- Whether some synthesized external entry requests default status
(main.rs:1487 and 1501). -/
def external_default_requested (entries : List (ExternalFileInfo × Nat)) : Bool :=
  entries.any (fun e => e.1.is_default.getD false)

/-- Recursion core of `clear_default_flags`, carrying the enumeration
index. -/
def clear_default_flags_aux (ttype : String) : Nat → List TrackInfo → List String
  | _, [] => []
  | index, track :: rest =>
    let tail := clear_default_flags_aux ttype (index + 1) rest
    if track.track_type = ttype then
      "--default-track-flag" :: (toString (parse_track_id track index) ++ ":no") :: tail
    else tail

/-- The default-flag clearing loop (main.rs:1491-1498 and 1505-1512): one
`--default-track-flag id:no` pair per primary track of the given kind.
The source iterates every track of the kind, with no removed-track
check. -/
def clear_default_flags (tracks : List TrackInfo) (ttype : String) : List String :=
  clear_default_flags_aux ttype 0 tracks

/-- Settings-driven default-language promotion (main.rs:1515-1528). -/
def promote_default_args (tracks : List TrackInfo) (ttype : String)
    (language : Option String) : List String :=
  match language with
  | some lang =>
    (collect_track_ids_by_language tracks ttype [lang]).flatMap
      (fun id => ["--default-track-flag", toString id ++ ":yes"])
  | none => []

/-- The audio keep-language allow-list (main.rs:1530). -/
def audio_keep_ids (settings : MuxSettings) (tracks : List TrackInfo) :
    Option (List Nat) :=
  if settings.only_keep_audios_enabled && !settings.only_keep_audio_languages.isEmpty then
    some (collect_track_ids_by_language tracks "audio" settings.only_keep_audio_languages)
  else none

/-- The subtitle keep-language allow-list (main.rs:1539). -/
def subtitle_keep_ids (settings : MuxSettings) (tracks : List TrackInfo) :
    Option (List Nat) :=
  if settings.only_keep_subtitles_enabled && !settings.only_keep_subtitle_languages.isEmpty then
    some (collect_track_ids_by_language tracks "subtitle" settings.only_keep_subtitle_languages)
  else none

/-- Recursion core of `per_track_edit_args`, carrying the enumeration
index. -/
def per_track_edit_args_aux : Nat → List TrackInfo → List String
  | _, [] => []
  | index, track :: rest =>
    let tail := per_track_edit_args_aux (index + 1) rest
    if is_track_removed track then tail
    else
      let track_id := parse_track_id track index
      (match track.name with
       | some name =>
         if (rust_trim name).isEmpty then []
         else ["--track-name", toString track_id ++ ":" ++ name]
       | none => []) ++
      (match track.language with
       | some language => ["--language", toString track_id ++ ":" ++ language]
       | none => []) ++
      (match track.is_default with
       | some b =>
         ["--default-track-flag", toString track_id ++ ":" ++ (if b then "yes" else "no")]
       | none => []) ++
      (if track.track_type = "subtitle" then
        match track.is_forced with
        | some b =>
          ["--forced-display-flag", toString track_id ++ ":" ++ (if b then "yes" else "no")]
        | none => []
       else []) ++ tail

/-- Per-track property edits emitted before the primary file path
(main.rs:1556-1590). -/
def per_track_edit_args (tracks : List TrackInfo) : List String :=
  per_track_edit_args_aux 0 tracks

/-- Recursion core of `kept_type_ids`, carrying the enumeration index. -/
def kept_type_ids_aux (ttype : String) : Nat → List TrackInfo → List Nat
  | _, [] => []
  | index, track :: rest =>
    let tail := kept_type_ids_aux ttype (index + 1) rest
    if track.track_type = ttype ∧ is_track_removed track = false then
      parse_track_id track index :: tail
    else tail

/-- Ids of the primary tracks of a kind that are not marked removed, as
collected for the track-order list (main.rs:1596-1619). -/
def kept_type_ids (tracks : List TrackInfo) (ttype : String) : List Nat :=
  kept_type_ids_aux ttype 0 tracks

/-- The single pass over a resolved external entry list that builds the
bulk-scope and per-primary-scope order entries while counting the running
file index (main.rs:1625-1637 and 1649-1665).  Returns (bulk entries,
per-primary entries, next file index). -/
def split_order_entries : Nat → List (ExternalFileInfo × Nat) →
    List String × List String × Nat
  | file_index, [] => ([], [], file_index)
  | file_index, (file, tid) :: rest =>
    let entry := toString file_index ++ ":" ++ toString tid
    let tail := split_order_entries (file_index + 1) rest
    if file.source = some "per-file" then (tail.1, entry :: tail.2.1, tail.2.2)
    else (entry :: tail.1, tail.2.1, tail.2.2)

/-- The `--track-order` block (main.rs:1594-1673). -/
def track_order_args (tracks : List TrackInfo)
    (resolvedA resolvedS fromAudio : List (ExternalFileInfo × Nat)) : List String :=
  if !resolvedA.isEmpty || !resolvedS.isEmpty || !fromAudio.isEmpty then
    let order0 := (kept_type_ids tracks "video").map (fun id => "0:" ++ toString id)
    let audioSplit := split_order_entries 1 resolvedA
    let subSplit := split_order_entries audioSplit.2.2 (resolvedS ++ fromAudio)
    let order := order0 ++ audioSplit.1 ++ audioSplit.2.1
      ++ (kept_type_ids tracks "audio").map (fun id => "0:" ++ toString id)
      ++ (kept_type_ids tracks "subtitle").map (fun id => "0:" ++ toString id)
      ++ subSplit.1 ++ subSplit.2.1
    if order.isEmpty then [] else ["--track-order", String.intercalate "," order]
  else []

/-- HashMap lookup `track_overrides.get(&track_id.to_string())` on the
association-list model. -/
def lookup_override (m : List (String × TrackOverride)) (key : String) :
    Option TrackOverride :=
  (m.find? (fun e => e.1 == key)).map (fun e => e.2)

/-- Rust `Option::or_else` as used for override-over-file-level fields. -/
def opt_or {α : Type} (a b : Option α) : Option α :=
  match a with
  | some x => some x
  | none => b

/-- Arguments for one synthesized external audio entry (main.rs:1677-1717).
The source reads `is_forced` for audio and intentionally emits nothing. -/
def external_audio_entry_args (audio : ExternalFileInfo) (track_id : Nat) :
    List String :=
  let ov := lookup_override audio.track_overrides (toString track_id)
  let language := opt_or (ov.bind (fun e => e.language))
    (if audio.apply_language then audio.language else none)
  let track_name := opt_or (ov.bind (fun e => e.track_name)) audio.track_name
  let delay := opt_or (ov.bind (fun e => e.delay_ms)) audio.delay_ms
  ["--no-video", "--no-subtitles", "--no-chapters", "--no-attachments",
   "--no-global-tags", "--audio-tracks", toString track_id]
  ++ (match language with
      | some l => ["--language", toString track_id ++ ":" ++ l]
      | none => [])
  ++ (match track_name with
      | some n =>
        if (rust_trim n).isEmpty then [] else ["--track-name", toString track_id ++ ":" ++ n]
      | none => [])
  ++ (match delay with
      | some d => ["--sync", toString track_id ++ ":" ++ toString d]
      | none => [])
  ++ (match audio.is_default with
      | some b =>
        ["--default-track-flag", toString track_id ++ ":" ++ (if b then "yes" else "no")]
      | none => [])
  ++ [audio.path]

/-- Arguments for one synthesized external subtitle entry
(main.rs:1724-1765). -/
def external_subtitle_entry_args (subtitle : ExternalFileInfo) (track_id : Nat) :
    List String :=
  let ov := lookup_override subtitle.track_overrides (toString track_id)
  let language := opt_or (ov.bind (fun e => e.language))
    (if subtitle.apply_language then subtitle.language else none)
  let track_name := opt_or (ov.bind (fun e => e.track_name)) subtitle.track_name
  let delay := opt_or (ov.bind (fun e => e.delay_ms)) subtitle.delay_ms
  ["--no-video", "--no-audio", "--no-chapters", "--no-attachments",
   "--no-global-tags", "--subtitle-tracks", toString track_id]
  ++ (match language with
      | some l => ["--language", toString track_id ++ ":" ++ l]
      | none => [])
  ++ (match track_name with
      | some n =>
        if (rust_trim n).isEmpty then [] else ["--track-name", toString track_id ++ ":" ++ n]
      | none => [])
  ++ (match delay with
      | some d => ["--sync", toString track_id ++ ":" ++ toString d]
      | none => [])
  ++ (match subtitle.is_default with
      | some b =>
        ["--default-track-flag", toString track_id ++ ":" ++ (if b then "yes" else "no")]
      | none => [])
  ++ (match subtitle.is_forced with
      | some b =>
        ["--forced-display-flag", toString track_id ++ ":" ++ (if b then "yes" else "no")]
      | none => [])
  ++ [subtitle.path]

/-- Chapter file arguments (main.rs:1767-1779).  The source gates the sync
argument on the f64 delay being nonzero; on the millisecond model this is
the integer being nonzero. -/
def chapter_args (chapters : List ExternalFileInfo) : List String :=
  chapters.flatMap (fun c =>
    ["--chapters", c.path] ++
      (match c.delay_ms with
       | some d => if d ≠ 0 then ["--sync", "0:" ++ toString d] else []
       | none => []))

/-- Attachment file arguments (main.rs:1781-1784). -/
def attachment_args (files : List ExternalFileInfo) : List String :=
  files.flatMap (fun a => ["--attach-file", a.path])

/-- Rust `build_mkvmerge_command` (main.rs:1360): the full synthesized
argument list, as the concatenation of the source's emission blocks in
source order. -/
def build_mkvmerge_command (job : MuxJobRequest) (settings : MuxSettings)
    (output_path : String) (probe : MkvProbe) : List String :=
  let resolvedA := resolved_external_audios job probe
  let resolvedS := resolved_external_subtitles job probe
  let fromAudio := resolved_subtitles_from_audio job probe
  ["--gui-mode", "--output", output_path]
  ++ strip_args settings
  ++ (if external_default_requested resolvedA then
        clear_default_flags job.video.tracks "audio" else [])
  ++ (if external_default_requested resolvedS then
        clear_default_flags job.video.tracks "subtitle" else [])
  ++ promote_default_args job.video.tracks "audio" settings.make_audio_default_language
  ++ promote_default_args job.video.tracks "subtitle" settings.make_subtitle_default_language
  ++ track_selection_args job.video.tracks "video" none
  ++ track_selection_args job.video.tracks "audio" (audio_keep_ids settings job.video.tracks)
  ++ track_selection_args job.video.tracks "subtitle" (subtitle_keep_ids settings job.video.tracks)
  ++ per_track_edit_args job.video.tracks
  ++ track_order_args job.video.tracks resolvedA resolvedS fromAudio
  ++ [job.video.path]
  ++ resolvedA.flatMap (fun e => external_audio_entry_args e.1 e.2)
  ++ (resolvedS ++ fromAudio).flatMap (fun e => external_subtitle_entry_args e.1 e.2)
  ++ chapter_args job.chapters
  ++ attachment_args job.attachments

/-- Recursion core of `build_mkvpropedit_args`, carrying the enumeration
index. -/
def build_mkvpropedit_args_aux : Nat → List TrackInfo → List String
  | _, [] => []
  | index, track :: rest =>
    let tail := build_mkvpropedit_args_aux (index + 1) rest
    if is_track_removed track then tail
    else
      let track_id := parse_track_id track index + 1
      (match track.name with
       | some name =>
         ["--edit", "track:" ++ toString track_id, "--set", "name=" ++ rust_trim name]
       | none => []) ++
      (match track.language with
       | some language =>
         ["--edit", "track:" ++ toString track_id, "--set", "language=" ++ language]
       | none => []) ++
      (match track.is_default with
       | some b =>
         ["--edit", "track:" ++ toString track_id, "--set",
          "flag-default=" ++ (if b then "1" else "0")]
       | none => []) ++
      (if track.track_type = "subtitle" then
        match track.is_forced with
        | some b =>
          ["--edit", "track:" ++ toString track_id, "--set",
           "flag-forced-display=" ++ (if b then "1" else "0")]
        | none => []
       else if track.track_type = "audio" ∨ track.track_type = "video" then
        match track.is_forced with
        | some b =>
          ["--edit", "track:" ++ toString track_id, "--set",
           "flag-forced=" ++ (if b then "1" else "0")]
        | none => []
       else []) ++ tail

/-- Rust `build_mkvpropedit_args` (main.rs:1223): in-place edit directives
for every kept primary track, referencing tracks by 1-based id. -/
def build_mkvpropedit_args (job : MuxJobRequest) : List String :=
  build_mkvpropedit_args_aux 0 job.video.tracks

/-- Character-level body of the `quote_arg` wrapping test. -/
def needs_quote_chars (cs : List Char) : Bool :=
  cs.contains ' ' || cs.contains '"' || cs.contains '\''

/-- Whether `quote_arg` wraps the argument (main.rs:1282). -/
def needs_quote (s : String) : Bool :=
  needs_quote_chars s.data

/-- The character-level body of Rust `str::replace('"', "\x5c\x22")`. -/
def escape_quotes_chars : List Char → List Char
  | [] => []
  | c :: rest =>
    if c = '"' then '\\' :: '"' :: escape_quotes_chars rest
    else c :: escape_quotes_chars rest

/-- Rust `quote_arg` (main.rs:1281): wrap in double quotes, escaping inner
double quotes, when the argument holds a space, double quote or single
quote. -/
def quote_arg (arg : String) : String :=
  if needs_quote arg then
    String.mk ('"' :: escape_quotes_chars arg.data ++ ['"'])
  else arg

/-- Rust `Vec::join(" ")` on the quoted parts. -/
def join_parts : List String → String
  | [] => ""
  | [x] => x
  | x :: xs => x ++ " " ++ join_parts xs

/-- Rust `join_mkvmerge_command` (main.rs:1289): the tool name followed by
each quoted argument, space separated. -/
def join_mkvmerge_command (args : List String) : String :=
  join_parts ("mkvmerge" :: args.map quote_arg)

/-- Tokenizer state: between tokens, inside an unquoted stretch, inside a
double-quoted stretch, or inside a double-quoted stretch directly after a
backslash (which escapes a following double quote and is otherwise a
literal character). -/
inductive TokMode where
  | between
  | unquoted
  | quoted
  | quotedEscape
deriving DecidableEq

/-- Re-tokenization of a command line under the `quote_arg` quoting scheme:
space separates tokens, a double quote toggles quoted mode, and inside
quotes a backslash escapes a directly following double quote. -/
def tokenize_chars : TokMode → List Char → List Char → List (List Char)
  | .between, _, [] => []
  | .between, _, c :: rest =>
    if c = ' ' then tokenize_chars .between [] rest
    else if c = '"' then tokenize_chars .quoted [] rest
    else tokenize_chars .unquoted [c] rest
  | .unquoted, cur, [] => [cur.reverse]
  | .unquoted, cur, c :: rest =>
    if c = ' ' then cur.reverse :: tokenize_chars .between [] rest
    else if c = '"' then tokenize_chars .quoted cur rest
    else tokenize_chars .unquoted (c :: cur) rest
  | .quoted, cur, [] => [cur.reverse]
  | .quoted, cur, c :: rest =>
    if c = '\\' then tokenize_chars .quotedEscape cur rest
    else if c = '"' then tokenize_chars .unquoted cur rest
    else tokenize_chars .quoted (c :: cur) rest
  | .quotedEscape, cur, [] => [('\\' :: cur).reverse]
  | .quotedEscape, cur, c :: rest =>
    if c = '"' then tokenize_chars .quoted ('"' :: cur) rest
    else if c = '\\' then tokenize_chars .quotedEscape ('\\' :: cur) rest
    else tokenize_chars .quoted (c :: '\\' :: cur) rest

/-- Re-tokenization of a preview command line. -/
def tokenize_command (s : String) : List String :=
  (tokenize_chars .between [] s.data).map String.mk

/-- Rust `parse_progress` (main.rs:1890): find the first percent sign, take
the run of ASCII digits just before it, and parse it as a `u8`.  The Rust
slice is all digits, so its `trim()` is the identity; `u8` parsing fails on
an empty run and on values above 255. -/
def parse_progress (line : String) : Option Nat :=
  match line.data.splitOnP (fun c => c = '%') with
  | [] => none
  | pre :: rest =>
    if rest.isEmpty then none
    else
      let digits := (pre.reverse.takeWhile (fun c => c.isDigit)).reverse
      if digits.isEmpty then none
      else
        let value := digits.foldl (fun acc c => acc * 10 + (c.toNat - 48)) 0
        if value ≤ 255 then some value else none

/-- The Processing event built in `spawn_log_reader` for a raw output line
that yields a parsed percentage (main.rs:1804-1815); `none` when the line
yields no percentage and no event is emitted. -/
def log_line_progress_event (job_id line : String) : Option MuxProgressEvent :=
  (parse_progress line).map (fun p =>
    { job_id := job_id
      status := "processing"
      progress := p
      message := none
      size_after := none
      error_message := none })

/-- How the scheduler disposes of a finished mkvmerge process, from the
exit-code policy at main.rs:2157-2192. -/
inductive ExitDisposition where
  | success
  | successWithWarnings
  | failure
deriving DecidableEq

/-- The exit-code policy of `process_job` (main.rs:2157-2192): a failed
wait is `-1`; a nonzero code is success-with-warnings exactly when it is 1
and the temporary or final output file exists, and otherwise a job
error. -/
def classify_exit_code (status : Option Int)
    (output_exists final_exists : Bool) : ExitDisposition :=
  let exit_code := status.getD (-1)
  if exit_code ≠ 0 then
    if exit_code = 1 ∧ (output_exists = true ∨ final_exists = true) then
      ExitDisposition.successWithWarnings
    else ExitDisposition.failure
  else ExitDisposition.success

/-- Whether `process_job` reaches the output-finalization steps (atomic
replace, checksum renames, size report): exactly when the exit disposition
is not a failure, since the error branch returns first (main.rs:2190). -/
def finalization_performed (status : Option Int)
    (output_exists final_exists : Bool) : Bool :=
  classify_exit_code status output_exists final_exists ≠ ExitDisposition.failure

/-- Rust `can_use_mkvpropedit` (main.rs:1975-1982): the fast in-place path
is allowed only when requested, in overwrite-source mode with an empty
destination, with no external files of any kind and no active
keep-language filter. -/
def can_use_mkvpropedit (settings : MuxSettings) (job : MuxJobRequest) : Bool :=
  settings.use_mkvpropedit
  && ((rust_trim settings.destination_dir).isEmpty && settings.overwrite_source)
  && job.audios.isEmpty
  && job.subtitles.isEmpty
  && job.chapters.isEmpty
  && job.attachments.isEmpty
  && (!settings.only_keep_audios_enabled || settings.only_keep_audio_languages.isEmpty)
  && (!settings.only_keep_subtitles_enabled || settings.only_keep_subtitle_languages.isEmpty)

/-- The execution strategy `process_job` ends up on for one job. -/
inductive JobPath where
  | errorLowDisk
  | errorNoDestination
  | errorPropeditMissing
  | errorMkvmergeMissing
  | fastEdit
  | fullSynthesis
deriving DecidableEq

/-- The per-job control flow of `process_job` up to the choice of
execution strategy (main.rs:1928-2123), with the environment facts (disk
preflight outcome, tool availability) passed in: preflight errors first,
then the fast path when allowed, available and productive, else full
synthesis through mkvmerge. -/
def process_job_path (settings : MuxSettings) (job : MuxJobRequest)
    (disk_ok propedit_available mkvmerge_available : Bool) : JobPath :=
  if disk_ok = false then JobPath.errorLowDisk
  else if (rust_trim settings.destination_dir).isEmpty ∧ settings.overwrite_source = false then
    JobPath.errorNoDestination
  else if can_use_mkvpropedit settings job then
    if propedit_available = false then JobPath.errorPropeditMissing
    else if build_mkvpropedit_args job ≠ [] then JobPath.fastEdit
    else if mkvmerge_available = false then JobPath.errorMkvmergeMissing
    else JobPath.fullSynthesis
  else if mkvmerge_available = false then JobPath.errorMkvmergeMissing
  else JobPath.fullSynthesis

/-- Spec-side description of the bulk-scope order entries: the entries of
the resolved list whose file is not per-primary scoped, each rendered as
its running file index (counted from `base` across the whole list) and
track id. -/
def bulk_order_entries (base : Nat) (l : List (ExternalFileInfo × Nat)) :
    List String :=
  ((List.enumFrom base l).filter
      (fun p => decide (p.2.1.source = some "per-file") = false)).map
    (fun p => toString p.1 ++ ":" ++ toString p.2.2)

/-- Spec-side description of the per-primary-scope order entries. -/
def per_order_entries (base : Nat) (l : List (ExternalFileInfo × Nat)) :
    List String :=
  ((List.enumFrom base l).filter
      (fun p => decide (p.2.1.source = some "per-file"))).map
    (fun p => toString p.1 ++ ":" ++ toString p.2.2)

/-- Example job for exercising the track-order claim: one kept primary
video track plus one bulk external audio file selecting track 0. -/
def order_example_job : MuxJobRequest :=
  { video := { path := "v.mkv", tracks := [{ id := "0", track_type := "video" }] },
    audios := [{ path := "a.aac", included_track_ids := some [0] }] }

/-- A probe that always fails; files with explicit selections never
consult it. -/
def no_probe : MkvProbe := fun _ => none

/-- Example job for the external-default clearing claim: the only primary
audio track is marked Remove (so it is not kept), and a bulk external
audio entry requests default status. -/
def default_clear_job : MuxJobRequest :=
  { video :=
      { path := "v.mkv"
        tracks := [{ id := "0", track_type := "audio", action := some "remove" }] }
    audios :=
      [{ path := "a.aac", included_track_ids := some [0], is_default := some true }] }

/-- Example job whose external audio and external subtitle files both
request default status against kept primary tracks of both kinds. -/
def default_clear_both_job : MuxJobRequest :=
  { video :=
      { path := "v.mkv"
        tracks := [{ id := "1", track_type := "audio" },
          { id := "2", track_type := "subtitle" }] }
    audios :=
      [{ path := "a.aac", included_track_ids := some [0], is_default := some true }]
    subtitles :=
      [{ path := "s.srt", included_track_ids := some [0], is_default := some true }] }

/-- Character-level body of `quote_arg`. -/
def quote_chars (cs : List Char) : List Char :=
  if needs_quote_chars cs then '"' :: escape_quotes_chars cs ++ ['"'] else cs

/-- The characters of a joined command line after its first part: a space
and a quoted argument for each remaining argument. -/
def joined_quoted_tail : List (List Char) → List Char
  | [] => []
  | a :: rest => ' ' :: quote_chars a ++ joined_quoted_tail rest

/-- An argument survives the quote/tokenize round trip when it is nonempty
and, in case it needs quoting, does not end in a backslash (a trailing
backslash would escape the closing quote). -/
def arg_safe_chars (cs : List Char) : Prop :=
  cs ≠ [] ∧ (needs_quote_chars cs = true → cs.getLast? ≠ some '\\')

/-- `arg_safe_chars` on a string's characters. -/
def arg_safe (s : String) : Prop :=
  s ≠ "" ∧ (needs_quote s = true → s.data.getLast? ≠ some '\\')

instance (cs : List Char) : Decidable (arg_safe_chars cs) := by
  unfold arg_safe_chars
  infer_instance

instance (s : String) : Decidable (arg_safe s) := by
  unfold arg_safe
  infer_instance

/-- Example job whose primary file path is the empty string: the quoting
scheme renders an empty argument as nothing, so re-tokenizing drops it. -/
def empty_path_job : MuxJobRequest := { video := { path := "" } }

/-- Example job exercising quoting in the round trip: the primary path
holds a space, an external audio entry carries language and name. -/
def round_trip_job : MuxJobRequest :=
  { video :=
      { path := "My Video.mkv"
        tracks := [{ id := "0", track_type := "video" },
          { id := "1", track_type := "audio", language := some "eng" }] }
    audios :=
      [{ path := "Extra Audio.aac", included_track_ids := some [0],
         language := some "jpn", track_name := some "Commentary" }] }

theorem collect_track_ids_by_action_aux_no_removed (ttype : String)
    (tracks : List TrackInfo)
    (h : ∀ t ∈ tracks, t.track_type = ttype → is_track_removed t = false) :
    ∀ index, collect_track_ids_by_action_aux ttype index tracks =
      (track_type_ids_aux ttype index tracks, false) := by
  induction tracks with
  | nil => intro index; rfl
  | cons t rest ih =>
    intro index
    have ht := h t (List.mem_cons_self t rest)
    have hrest : ∀ u ∈ rest, u.track_type = ttype → is_track_removed u = false :=
      fun u hu => h u (List.mem_cons_of_mem t hu)
    simp only [collect_track_ids_by_action_aux, track_type_ids_aux,
      ih hrest (index + 1)]
    by_cases hty : t.track_type = ttype
    · simp [hty, ht hty]
    · simp [hty]

theorem track_selection_selected_no_removed (tracks : List TrackInfo)
    (ttype : String)
    (h : ∀ t ∈ tracks, t.track_type = ttype → is_track_removed t = false) :
    track_selection_selected tracks ttype none = track_type_ids tracks ttype := by
  simp [track_selection_selected, collect_track_ids_by_action,
    collect_track_ids_by_action_aux_no_removed ttype tracks h 0]

theorem track_selection_args_no_removed (tracks : List TrackInfo)
    (ttype : String)
    (h : ∀ t ∈ tracks, t.track_type = ttype → is_track_removed t = false) :
    track_selection_args tracks ttype none = [] := by
  simp only [track_selection_args, collect_track_ids_by_action,
    collect_track_ids_by_action_aux_no_removed ttype tracks h 0,
    track_selection_selected_no_removed tracks ttype h]
  split
  · rfl
  · simp

/-- C2: for every track list in which no track of the given kind is marked
Remove and no keep-language allow-list is supplied for that kind, the
selection equals the full set of tracks of that kind, and the synthesizer
pushes no track-selection argument for that kind. -/
theorem claim_c2_keep_all_noop (tracks : List TrackInfo) (ttype : String)
    (args : List String)
    (h : ∀ t ∈ tracks, t.track_type = ttype → is_track_removed t = false) :
    track_selection_selected tracks ttype none = track_type_ids tracks ttype ∧
    apply_track_selection args tracks ttype none = args := by
  refine ⟨track_selection_selected_no_removed tracks ttype h, ?_⟩
  simp [apply_track_selection, track_selection_args_no_removed tracks ttype h]

theorem claim_c2_keep_all_noop_witness :
    track_selection_selected
        [{ id := "0", track_type := "video" }, { id := "1", track_type := "audio" },
         { id := "2", track_type := "audio" }] "audio" none =
      track_type_ids
        [{ id := "0", track_type := "video" }, { id := "1", track_type := "audio" },
         { id := "2", track_type := "audio" }] "audio" ∧
    apply_track_selection ["--gui-mode"]
        [{ id := "0", track_type := "video" }, { id := "1", track_type := "audio" },
         { id := "2", track_type := "audio" }] "audio" none = ["--gui-mode"] :=
  claim_c2_keep_all_noop _ "audio" ["--gui-mode"] (by decide)

/-- C10: a kind with zero tracks in the container yields no selection
argument at all, and the disable-this-kind flag is the sole emission only
when the container has a track of the kind and the selection came out
empty. -/
theorem claim_c10_absent_kind_silent (tracks : List TrackInfo) (ttype : String)
    (args : List String) (keep : Option (List Nat)) :
    (track_type_ids tracks ttype = [] →
      apply_track_selection args tracks ttype keep = args) ∧
    (∀ f, disable_track_flag ttype = some f →
      track_selection_args tracks ttype keep = [f] →
      track_type_ids tracks ttype ≠ [] ∧
        track_selection_selected tracks ttype keep = []) := by
  constructor
  · intro hempty
    simp [apply_track_selection, track_selection_args, hempty]
  · intro f hf hargs
    simp only [track_selection_args] at hargs
    split at hargs
    · exact absurd hargs (by simp)
    next hne =>
      split at hargs
      · exact absurd hargs (by simp)
      · split at hargs
        next hsel =>
          refine ⟨fun hnil => hne (by rw [hnil]; rfl), ?_⟩
          simpa using hsel
        next hselne =>
          split at hargs <;> simp_all

theorem claim_c10_absent_kind_silent_witness :
    (apply_track_selection ["--gui-mode"]
        [{ id := "0", track_type := "video" }] "audio" (some [0]) = ["--gui-mode"]) ∧
    (track_type_ids [{ id := "0", track_type := "video" },
        { id := "1", track_type := "audio", action := some "remove" }] "audio" ≠ [] ∧
      track_selection_selected [{ id := "0", track_type := "video" },
        { id := "1", track_type := "audio", action := some "remove" }] "audio" none = []) :=
  ⟨(claim_c10_absent_kind_silent [{ id := "0", track_type := "video" }] "audio"
      ["--gui-mode"] (some [0])).1 (by decide),
   (claim_c10_absent_kind_silent [{ id := "0", track_type := "video" },
      { id := "1", track_type := "audio", action := some "remove" }] "audio"
      [] none).2 "--no-audio" (by decide) (by decide)⟩

theorem expand_entries_length (file : ExternalFileInfo) (sdf : Bool) :
    ∀ (index : Nat) (ids : List Nat),
      (expand_entries file sdf index ids).length = ids.length := by
  intro index ids
  induction ids generalizing index with
  | nil => rfl
  | cons t rest ih => simp [expand_entries, ih]

theorem expand_entries_map_snd (file : ExternalFileInfo) (sdf : Bool) :
    ∀ (index : Nat) (ids : List Nat),
      (expand_entries file sdf index ids).map Prod.snd = ids := by
  intro index ids
  induction ids generalizing index with
  | nil => rfl
  | cons t rest ih => simp [expand_entries, ih]

theorem expand_entries_pos (file : ExternalFileInfo) (sdf : Bool) :
    ∀ (index : Nat) (ids : List Nat), 1 ≤ index →
      ∀ e ∈ expand_entries file sdf index ids,
        e.1.apply_language = false ∧ (sdf = true → e.1.is_default = some false) := by
  intro index ids
  induction ids generalizing index with
  | nil => intro _ e he; simp [expand_entries] at he
  | cons t rest ih =>
    intro hidx e he
    simp only [expand_entries, List.mem_cons] at he
    rcases he with he | he
    · have hbeq : (index == 0) = false := beq_eq_false_iff_ne.mpr (by omega)
      subst he
      refine ⟨by simpa using hbeq, fun hs => by simp [hs, hbeq]⟩
    · exact ih (index + 1) (by omega) e he

/-- C3: for an external audio/subtitle file with no explicit track
selection whose probe reports N tracks of the relevant kind, synthesis
produces exactly N entries when N is above one and exactly one entry
otherwise (the track id defaulting to 0 when nothing is resolvable); and
when N is above one, only the first entry applies the file-level language
or inherits a requested file-level default flag. -/
theorem claim_c3_multi_track_expansion (file : ExternalFileInfo)
    (probe : MkvProbe) (mkvType : String) (info : List ProbedTrack)
    (ids : List Nat)
    (hincl : file.included_track_ids = none)
    (hprobe : probe file.path = some info)
    (hids : ids = parse_external_track_ids_mkvmerge info mkvType) :
    (1 < ids.length →
      (resolve_entries probe mkvType file).length = ids.length) ∧
    (ids.length ≤ 1 → (resolve_entries probe mkvType file).length = 1) ∧
    (ids = [] → file.track_id = none →
      (resolve_entries probe mkvType file).map Prod.snd = [0]) ∧
    (1 < ids.length →
      (∀ e ∈ (resolve_entries probe mkvType file).head?.toList,
        e.1.apply_language = true ∧
          (file.is_default = some true → e.1.is_default = some true)) ∧
      (∀ e ∈ (resolve_entries probe mkvType file).tail,
        e.1.apply_language = false ∧
          (file.is_default = some true → e.1.is_default = some false))) := by
  by_cases hlen : 1 < ids.length
  · have hne : ids.isEmpty = false := by
      cases ids
      · simp at hlen
      · rfl
    have hent : resolve_entries probe mkvType file =
        expand_entries file (file.is_default.getD false) 0 ids := by
      simp [resolve_entries, resolve_external_ids, hincl, hprobe, ← hids, hlen, hne]
    refine ⟨fun _ => by rw [hent]; exact expand_entries_length _ _ _ _,
      fun h1 => absurd hlen (by omega),
      fun hnil => by rw [hnil] at hlen; simp at hlen,
      fun _ => ?_⟩
    rcases ids with _ | ⟨a, rest⟩
    · simp at hlen
    · rw [hent]
      constructor
      · intro e he
        simp only [expand_entries, List.head?_cons, Option.toList_some,
          List.mem_singleton] at he
        subst he
        refine ⟨by simp, fun hd => by simp [hd]⟩
      · intro e he
        simp only [expand_entries, List.tail_cons] at he
        have := expand_entries_pos file (file.is_default.getD false) 1 rest
          (by omega) e he
        exact ⟨this.1, fun hd => this.2 (by simp [hd])⟩
  · have hlen' : ids.length ≤ 1 := by omega
    have hres : ∃ l : List Nat,
        resolve_entries probe mkvType file =
          expand_entries file (file.is_default.getD false) 0 l ∧
        l.length = 1 ∧
        (ids = [] → file.track_id = none → l = [0]) := by
      rcases htid : file.track_id with _ | tid
      · rcases hcase : ids with _ | ⟨a, rest⟩
        · refine ⟨[0], ?_, rfl, fun _ _ => rfl⟩
          simp [resolve_entries, resolve_external_ids, hincl, hprobe, ← hids,
            hcase, htid]
        · have hrest : rest = [] := by
            rw [hcase] at hlen'
            simp only [List.length_cons] at hlen'
            exact List.length_eq_zero.mp (by omega)
          subst hrest
          refine ⟨[a], ?_, rfl, fun hnil => by cases hnil⟩
          simp [resolve_entries, resolve_external_ids, hincl, hprobe, ← hids,
            hcase, htid]
      · refine ⟨[tid], ?_, rfl, fun _ hnone => by cases hnone⟩
        simp [resolve_entries, resolve_external_ids, hincl, hprobe, ← hids,
          htid, hlen]
    obtain ⟨l, hl, hlen1, hl0⟩ := hres
    refine ⟨fun h => absurd h hlen, fun _ => ?_, fun hnil hnone => ?_,
      fun h => absurd h hlen⟩
    · rw [hl, expand_entries_length, hlen1]
    · rw [hl0 hnil hnone] at hl
      rw [hl, expand_entries_map_snd]

theorem claim_c3_multi_track_expansion_witness :
    ((1 : Nat) < 2 →
      (resolve_entries
        (fun _ => some [⟨some "audio", some 3⟩, ⟨some "audio", some 5⟩])
        "Audio" { path := "ext.mka", is_default := some true }).length = 2) ∧
    ((resolve_entries
        (fun _ => some [⟨some "audio", some 3⟩, ⟨some "audio", some 5⟩])
        "Audio" { path := "ext.mka", is_default := some true }).length = 2) ∧
    (∀ e ∈ (resolve_entries
        (fun _ => some [⟨some "audio", some 3⟩, ⟨some "audio", some 5⟩])
        "Audio" { path := "ext.mka", is_default := some true }).tail,
      e.1.apply_language = false) := by
  have h := claim_c3_multi_track_expansion
    { path := "ext.mka", is_default := some true }
    (fun _ => some [⟨some "audio", some 3⟩, ⟨some "audio", some 5⟩])
    "Audio" [⟨some "audio", some 3⟩, ⟨some "audio", some 5⟩] [3, 5]
    (by decide) rfl (by decide)
  refine ⟨fun _ => h.1 (by decide), h.1 (by decide),
    fun e he => ((h.2.2.2 (by decide)).2 e he).1⟩

theorem can_use_mkvpropedit_spec (settings : MuxSettings) (job : MuxJobRequest)
    (h : can_use_mkvpropedit settings job = true) :
    settings.use_mkvpropedit = true ∧
    (rust_trim settings.destination_dir).isEmpty = true ∧
    settings.overwrite_source = true ∧
    job.audios = [] ∧ job.subtitles = [] ∧ job.chapters = [] ∧
    job.attachments = [] ∧
    (settings.only_keep_audios_enabled = false ∨
      settings.only_keep_audio_languages = []) ∧
    (settings.only_keep_subtitles_enabled = false ∨
      settings.only_keep_subtitle_languages = []) := by
  simp only [can_use_mkvpropedit, Bool.and_eq_true, Bool.or_eq_true,
    Bool.not_eq_true', List.isEmpty_iff, List.isEmpty_eq_true] at h
  tauto

/-- C5: the in-place fast path is chosen only when overwrite-source mode is
active with an empty destination, the job carries no external audio,
subtitle, chapter or attachment file, no keep-language filter is active,
and the settings request the fast path; whenever that eligibility
conjunction fails and the preflight checks and tool availability do not
themselves error the job, full synthesis is performed. -/
theorem claim_c5_fast_path_gating (settings : MuxSettings) (job : MuxJobRequest)
    (disk_ok propedit_available mkvmerge_available : Bool) :
    (process_job_path settings job disk_ok propedit_available mkvmerge_available =
        JobPath.fastEdit →
      settings.use_mkvpropedit = true ∧
      (rust_trim settings.destination_dir).isEmpty = true ∧
      settings.overwrite_source = true ∧
      job.audios = [] ∧ job.subtitles = [] ∧ job.chapters = [] ∧
      job.attachments = [] ∧
      (settings.only_keep_audios_enabled = false ∨
        settings.only_keep_audio_languages = []) ∧
      (settings.only_keep_subtitles_enabled = false ∨
        settings.only_keep_subtitle_languages = [])) ∧
    (can_use_mkvpropedit settings job = false → disk_ok = true →
      ¬((rust_trim settings.destination_dir).isEmpty ∧ settings.overwrite_source = false) →
      mkvmerge_available = true →
      process_job_path settings job disk_ok propedit_available mkvmerge_available =
        JobPath.fullSynthesis) := by
  constructor
  · intro h
    have hcan : can_use_mkvpropedit settings job = true := by
      by_contra hfalse
      rw [Bool.not_eq_true] at hfalse
      unfold process_job_path at h
      split_ifs at h
      simp_all
    exact can_use_mkvpropedit_spec settings job hcan
  · intro hcan hdisk hdest hmkv
    unfold process_job_path
    rw [if_neg (by simp [hdisk]), if_neg hdest, if_neg (by simp [hcan]),
      if_neg (by simp [hmkv])]

theorem claim_c5_fast_path_gating_witness :
    process_job_path
        { destination_dir := "d", use_mkvpropedit := true }
        { video := { path := "v.mkv" } } true true true =
      JobPath.fullSynthesis :=
  (claim_c5_fast_path_gating
    { destination_dir := "d", use_mkvpropedit := true }
    { video := { path := "v.mkv" } } true true true).2
    (by decide) rfl (by decide) rfl

/-- C6: the property editor runs only when the fast-path builder produced
at least one directive; an eligible job whose builder yields zero
directives falls back to full synthesis through the multiplexer. -/
theorem claim_c6_zero_directive_fallback (settings : MuxSettings)
    (job : MuxJobRequest) (disk_ok propedit_available mkvmerge_available : Bool) :
    (process_job_path settings job disk_ok propedit_available mkvmerge_available =
        JobPath.fastEdit → build_mkvpropedit_args job ≠ []) ∧
    (can_use_mkvpropedit settings job = true → propedit_available = true →
      build_mkvpropedit_args job = [] → disk_ok = true → mkvmerge_available = true →
      process_job_path settings job disk_ok propedit_available mkvmerge_available =
        JobPath.fullSynthesis) := by
  constructor
  · intro h
    unfold process_job_path at h
    split_ifs at h
    simp_all
  · intro hcan hprop hargs hdisk hmkv
    have hspec := can_use_mkvpropedit_spec settings job hcan
    unfold process_job_path
    rw [if_neg (by simp [hdisk]),
      if_neg (by intro hc; rw [hspec.2.2.1] at hc; cases hc.2),
      if_pos hcan, if_neg (by simp [hprop]), if_neg (by simp [hargs]),
      if_neg (by simp [hmkv])]

theorem claim_c6_zero_directive_fallback_witness :
    process_job_path { use_mkvpropedit := true, overwrite_source := true }
        { video := { path := "v.mkv", tracks := [{ id := "0", track_type := "video" }] } }
        true true true =
      JobPath.fullSynthesis :=
  (claim_c6_zero_directive_fallback
    { use_mkvpropedit := true, overwrite_source := true }
    { video := { path := "v.mkv", tracks := [{ id := "0", track_type := "video" }] } }
    true true true).2 (by decide) rfl (by decide) rfl rfl

/-- C7: on the full-synthesis path, a nonzero exit code counts as
success-with-warnings exactly when it is the multiplexer's warnings code 1
and the produced output file (temporary or final name) exists; every other
nonzero result, including a failed wait (modelled as no exit code), is a
job error and skips output finalization. -/
theorem claim_c7_exit_code_policy (status : Option Int)
    (output_exists final_exists : Bool) :
    (classify_exit_code status output_exists final_exists =
        ExitDisposition.successWithWarnings →
      status = some 1 ∧ (output_exists = true ∨ final_exists = true)) ∧
    (status ≠ some 0 →
      ¬(status = some 1 ∧ (output_exists = true ∨ final_exists = true)) →
      classify_exit_code status output_exists final_exists =
        ExitDisposition.failure ∧
      finalization_performed status output_exists final_exists = false) := by
  constructor
  · intro h
    unfold classify_exit_code at h
    rcases status with _ | code
    · simp only [Option.getD_none] at h
      rw [if_pos (by decide), if_neg (by simp)] at h
      cases h
    · simp only [Option.getD_some] at h
      split_ifs at h with h1 h2
      · exact ⟨by rw [h2.1], h2.2⟩
  · intro hnz hnw
    have hcode : status.getD (-1) ≠ 0 := by
      rcases status with _ | code
      · decide
      · simpa using fun hc => hnz (by rw [hc])
    have hclass : classify_exit_code status output_exists final_exists =
        ExitDisposition.failure := by
      unfold classify_exit_code
      rw [if_pos hcode, if_neg ?_]
      intro hc
      rcases status with _ | code
      · simp at hc
      · exact hnw ⟨by simpa using hc.1, hc.2⟩
    exact ⟨hclass, by simp [finalization_performed, hclass]⟩

theorem claim_c7_exit_code_policy_witness :
    classify_exit_code (some 2) true true = ExitDisposition.failure ∧
    finalization_performed (some 2) true true = false :=
  (claim_c7_exit_code_policy (some 2) true true).2 (by decide) (by decide)

theorem parse_progress_le_255 (line : String) (p : Nat)
    (h : parse_progress line = some p) : p ≤ 255 := by
  unfold parse_progress at h
  split at h
  · cases h
  next pre rest heq =>
    by_cases h1 : rest.isEmpty
    · rw [if_pos h1] at h; cases h
    · rw [if_neg h1] at h
      by_cases h2 : ((pre.reverse.takeWhile (fun c => c.isDigit)).reverse).isEmpty
      · rw [if_pos h2] at h; cases h
      · rw [if_neg h2] at h
        by_cases h3 : ((pre.reverse.takeWhile (fun c => c.isDigit)).reverse).foldl
            (fun acc c => acc * 10 + (c.toNat - 48)) 0 ≤ 255
        · rw [if_pos h3] at h
          exact (Option.some_inj.mp h) ▸ h3
        · rw [if_neg h3] at h; cases h

/-- C8 as amended: a Processing event forwarded from a parsed progress
line carries exactly the parsed digit-run value, which the u8 parse bounds
by 255; values above 100 are forwarded without clamping. -/
theorem claim_c8_progress_forwarding (job_id line : String)
    (e : MuxProgressEvent)
    (h : log_line_progress_event job_id line = some e) :
    parse_progress line = some e.progress ∧ e.progress ≤ 255 := by
  unfold log_line_progress_event at h
  rcases hp : parse_progress line with _ | p
  · rw [hp] at h; cases h
  · rw [hp] at h
    simp only [Option.map_some', Option.some_inj] at h
    subst h
    exact ⟨rfl, parse_progress_le_255 line p hp⟩

theorem claim_c8_progress_forwarding_witness :
    parse_progress "Progress: 57%" = some 57 ∧ (57 : Nat) ≤ 255 :=
  claim_c8_progress_forwarding "job-1" "Progress: 57%"
    { job_id := "job-1", status := "processing", progress := 57 } (by decide)

/-- C8 counterexample: the raw line "Progress: 150%" parses to 150 and the
forwarded Processing event carries percent 150, above the claimed bound of
100 — `spawn_log_reader` performs no clamping. -/
theorem claim_c8_counterexample :
    log_line_progress_event "job-1" "Progress: 150%" =
      some { job_id := "job-1", status := "processing", progress := 150 } ∧
    ¬(150 : Nat) ≤ 100 :=
  ⟨by decide, by decide⟩

theorem split_order_entries_eq (l : List (ExternalFileInfo × Nat)) :
    ∀ base, split_order_entries base l =
      (bulk_order_entries base l, per_order_entries base l, base + l.length) := by
  induction l with
  | nil =>
    intro base
    simp [split_order_entries, bulk_order_entries, per_order_entries,
      List.enumFrom]
  | cons e rest ih =>
    intro base
    obtain ⟨file, tid⟩ := e
    by_cases hs : file.source = some "per-file"
    · simp [split_order_entries, ih (base + 1), bulk_order_entries,
        per_order_entries, List.enumFrom, hs]
      omega
    · simp [split_order_entries, ih (base + 1), bulk_order_entries,
        per_order_entries, List.enumFrom, hs]
      omega

theorem order_entries_nil (base : Nat) (l : List (ExternalFileInfo × Nat))
    (hbulk : bulk_order_entries base l = [])
    (hper : per_order_entries base l = []) : l = [] := by
  cases l with
  | nil => rfl
  | cons e rest =>
    obtain ⟨file, tid⟩ := e
    by_cases hs : file.source = some "per-file"
    · simp [per_order_entries, List.enumFrom, hs] at hper
    · simp [bulk_order_entries, List.enumFrom, hs] at hbulk

/-- C1: whenever a job has at least one synthesized external audio or
subtitle entry, the synthesized arguments contain the track-order flag
whose comma-joined list is, in order: kept primary video tracks, bulk
external audio entries, per-primary external audio entries, kept primary
audio tracks, kept primary subtitle tracks, bulk external subtitle
entries, per-primary external subtitle entries; the list is never empty in
this situation, so the flag-omission clause for an empty list is
vacuously respected, and the flag precedes the primary file path. -/
theorem claim_c1_track_order (job : MuxJobRequest) (settings : MuxSettings)
    (output_path : String) (probe : MkvProbe)
    (h : resolved_external_audios job probe ≠ [] ∨
         resolved_external_subtitles job probe ≠ [] ∨
         resolved_subtitles_from_audio job probe ≠ []) :
    ∃ pre suf,
      build_mkvmerge_command job settings output_path probe =
        pre ++ ["--track-order", String.intercalate ","
          ((kept_type_ids job.video.tracks "video").map
              (fun id => "0:" ++ toString id)
            ++ bulk_order_entries 1 (resolved_external_audios job probe)
            ++ per_order_entries 1 (resolved_external_audios job probe)
            ++ (kept_type_ids job.video.tracks "audio").map
              (fun id => "0:" ++ toString id)
            ++ (kept_type_ids job.video.tracks "subtitle").map
              (fun id => "0:" ++ toString id)
            ++ bulk_order_entries (1 + (resolved_external_audios job probe).length)
              (resolved_external_subtitles job probe ++
                resolved_subtitles_from_audio job probe)
            ++ per_order_entries (1 + (resolved_external_audios job probe).length)
              (resolved_external_subtitles job probe ++
                resolved_subtitles_from_audio job probe))] ++ suf ∧
      job.video.path ∈ suf := by
  set ra := resolved_external_audios job probe with hra
  set rs := resolved_external_subtitles job probe with hrs
  set fa := resolved_subtitles_from_audio job probe with hfa
  set tracks := job.video.tracks with htracks
  set order := (kept_type_ids tracks "video").map (fun id => "0:" ++ toString id)
    ++ bulk_order_entries 1 ra ++ per_order_entries 1 ra
    ++ (kept_type_ids tracks "audio").map (fun id => "0:" ++ toString id)
    ++ (kept_type_ids tracks "subtitle").map (fun id => "0:" ++ toString id)
    ++ bulk_order_entries (1 + ra.length) (rs ++ fa)
    ++ per_order_entries (1 + ra.length) (rs ++ fa) with horder
  have hcond : (!ra.isEmpty || !rs.isEmpty || !fa.isEmpty) = true := by
    rcases h with h | h | h <;> simp_all [List.isEmpty_iff]
  have horder_ne : order.isEmpty = false := by
    rw [List.isEmpty_eq_false_iff_exists_mem]
    by_contra hno
    push_neg at hno
    have hnil : order = [] := List.eq_nil_iff_forall_not_mem.mpr hno
    rw [horder] at hnil
    repeat rw [List.append_eq_nil] at hnil
    obtain ⟨⟨⟨⟨⟨⟨_, hb1⟩, hp1⟩, _⟩, _⟩, hb2⟩, hp2⟩ := hnil
    have h1 := order_entries_nil 1 ra hb1 hp1
    have h2 := order_entries_nil (1 + ra.length) (rs ++ fa) hb2 hp2
    rw [List.append_eq_nil] at h2
    rcases h with h | h | h
    · exact h h1
    · exact h h2.1
    · exact h h2.2
  have hargs : track_order_args tracks ra rs fa =
      ["--track-order", String.intercalate "," order] := by
    unfold track_order_args
    rw [if_pos hcond]
    simp only [split_order_entries_eq]
    rw [← horder, if_neg (by simp [horder_ne])]
  refine ⟨["--gui-mode", "--output", output_path]
      ++ strip_args settings
      ++ (if external_default_requested ra then
            clear_default_flags tracks "audio" else [])
      ++ (if external_default_requested rs then
            clear_default_flags tracks "subtitle" else [])
      ++ promote_default_args tracks "audio" settings.make_audio_default_language
      ++ promote_default_args tracks "subtitle" settings.make_subtitle_default_language
      ++ track_selection_args tracks "video" none
      ++ track_selection_args tracks "audio" (audio_keep_ids settings tracks)
      ++ track_selection_args tracks "subtitle" (subtitle_keep_ids settings tracks)
      ++ per_track_edit_args tracks,
    [job.video.path]
      ++ ra.flatMap (fun e => external_audio_entry_args e.1 e.2)
      ++ (rs ++ fa).flatMap (fun e => external_subtitle_entry_args e.1 e.2)
      ++ chapter_args job.chapters
      ++ attachment_args job.attachments, ?_, by simp⟩
  show build_mkvmerge_command job settings output_path probe = _
  simp only [build_mkvmerge_command, ← hra, ← hrs, ← hfa, ← htracks, hargs]
  simp only [List.append_assoc]

theorem claim_c1_track_order_witness :
    ∃ pre suf,
      build_mkvmerge_command order_example_job {} "out.mkv" no_probe =
        pre ++ ["--track-order", "0:0,1:0"] ++ suf ∧
      "v.mkv" ∈ suf := by
  obtain ⟨pre, suf, h1, h2⟩ := claim_c1_track_order
    order_example_job {} "out.mkv" no_probe (Or.inl (by decide))
  refine ⟨pre, suf, ?_, by simpa [order_example_job] using h2⟩
  rw [h1, show String.intercalate ","
    ((kept_type_ids order_example_job.video.tracks "video").map
        (fun id => "0:" ++ toString id)
      ++ bulk_order_entries 1 (resolved_external_audios order_example_job no_probe)
      ++ per_order_entries 1 (resolved_external_audios order_example_job no_probe)
      ++ (kept_type_ids order_example_job.video.tracks "audio").map
        (fun id => "0:" ++ toString id)
      ++ (kept_type_ids order_example_job.video.tracks "subtitle").map
        (fun id => "0:" ++ toString id)
      ++ bulk_order_entries
        (1 + (resolved_external_audios order_example_job no_probe).length)
        (resolved_external_subtitles order_example_job no_probe ++
          resolved_subtitles_from_audio order_example_job no_probe)
      ++ per_order_entries
        (1 + (resolved_external_audios order_example_job no_probe).length)
        (resolved_external_subtitles order_example_job no_probe ++
          resolved_subtitles_from_audio order_example_job no_probe)) = "0:0,1:0"
    from by decide]

/-- C4 counterexample: with no currently-kept primary audio track at all,
the claim of clearing only kept tracks (and no others) predicts no
default-track-flag "no" assignment, yet the synthesized arguments clear
the Remove-marked primary audio track 0 — the source loop iterates every
track of the kind without a kept check (main.rs:1491). -/
theorem claim_c4_counterexample :
    kept_type_ids default_clear_job.video.tracks "audio" = [] ∧
    external_default_requested
      (resolved_external_audios default_clear_job no_probe) = true ∧
    build_mkvmerge_command default_clear_job {} "out.mkv" no_probe =
      ["--gui-mode", "--output", "out.mkv", "--default-track-flag", "0:no",
       "--no-audio", "--track-order", "1:0", "v.mkv", "--no-video",
       "--no-subtitles", "--no-chapters", "--no-attachments",
       "--no-global-tags", "--audio-tracks", "0", "--default-track-flag",
       "0:yes", "a.aac"] :=
  ⟨by decide, by decide, by decide⟩

theorem clear_default_flags_aux_enum (ttype : String) (tracks : List TrackInfo) :
    ∀ index, clear_default_flags_aux ttype index tracks =
      ((List.enumFrom index tracks).filter
          (fun p => decide (p.2.track_type = ttype))).flatMap
        (fun p => ["--default-track-flag",
          toString (parse_track_id p.2 p.1) ++ ":no"]) := by
  induction tracks with
  | nil => intro index; rfl
  | cons t rest ih =>
    intro index
    by_cases ht : t.track_type = ttype
    · simp [clear_default_flags_aux, List.enumFrom, ht, ih (index + 1)]
    · simp [clear_default_flags_aux, List.enumFrom, ht, ih (index + 1)]

theorem clear_default_flags_enum (tracks : List TrackInfo) (ttype : String) :
    clear_default_flags tracks ttype =
      ((List.enumFrom 0 tracks).filter
          (fun p => decide (p.2.track_type = ttype))).flatMap
        (fun p => ["--default-track-flag",
          toString (parse_track_id p.2 p.1) ++ ":no"]) :=
  clear_default_flags_aux_enum ttype tracks 0

/-- C4 as amended: when some synthesized external audio (respectively
subtitle) entry requests default status, the synthesized arguments contain,
before the primary file path, one default-track-flag "no" assignment for
every primary-container track of that same kind — every track of the kind,
including Remove-marked ones, not only the currently-kept ones. -/
theorem claim_c4_default_clearing (job : MuxJobRequest) (settings : MuxSettings)
    (output_path : String) (probe : MkvProbe) :
    (external_default_requested (resolved_external_audios job probe) = true →
      ∃ pre suf,
        build_mkvmerge_command job settings output_path probe =
          pre ++ ((List.enumFrom 0 job.video.tracks).filter
              (fun p => decide (p.2.track_type = "audio"))).flatMap
            (fun p => ["--default-track-flag",
              toString (parse_track_id p.2 p.1) ++ ":no"]) ++ suf ∧
        job.video.path ∈ suf) ∧
    (external_default_requested (resolved_external_subtitles job probe) = true →
      ∃ pre suf,
        build_mkvmerge_command job settings output_path probe =
          pre ++ ((List.enumFrom 0 job.video.tracks).filter
              (fun p => decide (p.2.track_type = "subtitle"))).flatMap
            (fun p => ["--default-track-flag",
              toString (parse_track_id p.2 p.1) ++ ":no"]) ++ suf ∧
        job.video.path ∈ suf) := by
  constructor
  · intro hA
    refine ⟨["--gui-mode", "--output", output_path] ++ strip_args settings,
      (if external_default_requested (resolved_external_subtitles job probe) then
          clear_default_flags job.video.tracks "subtitle" else [])
        ++ promote_default_args job.video.tracks "audio"
          settings.make_audio_default_language
        ++ promote_default_args job.video.tracks "subtitle"
          settings.make_subtitle_default_language
        ++ track_selection_args job.video.tracks "video" none
        ++ track_selection_args job.video.tracks "audio"
          (audio_keep_ids settings job.video.tracks)
        ++ track_selection_args job.video.tracks "subtitle"
          (subtitle_keep_ids settings job.video.tracks)
        ++ per_track_edit_args job.video.tracks
        ++ track_order_args job.video.tracks
          (resolved_external_audios job probe)
          (resolved_external_subtitles job probe)
          (resolved_subtitles_from_audio job probe)
        ++ [job.video.path]
        ++ (resolved_external_audios job probe).flatMap
          (fun e => external_audio_entry_args e.1 e.2)
        ++ (resolved_external_subtitles job probe ++
            resolved_subtitles_from_audio job probe).flatMap
          (fun e => external_subtitle_entry_args e.1 e.2)
        ++ chapter_args job.chapters
        ++ attachment_args job.attachments, ?_, by simp⟩
    simp only [build_mkvmerge_command, if_pos hA, clear_default_flags_enum,
      List.append_assoc]
  · intro hS
    refine ⟨["--gui-mode", "--output", output_path] ++ strip_args settings
        ++ (if external_default_requested (resolved_external_audios job probe) then
            clear_default_flags job.video.tracks "audio" else []),
      promote_default_args job.video.tracks "audio"
          settings.make_audio_default_language
        ++ promote_default_args job.video.tracks "subtitle"
          settings.make_subtitle_default_language
        ++ track_selection_args job.video.tracks "video" none
        ++ track_selection_args job.video.tracks "audio"
          (audio_keep_ids settings job.video.tracks)
        ++ track_selection_args job.video.tracks "subtitle"
          (subtitle_keep_ids settings job.video.tracks)
        ++ per_track_edit_args job.video.tracks
        ++ track_order_args job.video.tracks
          (resolved_external_audios job probe)
          (resolved_external_subtitles job probe)
          (resolved_subtitles_from_audio job probe)
        ++ [job.video.path]
        ++ (resolved_external_audios job probe).flatMap
          (fun e => external_audio_entry_args e.1 e.2)
        ++ (resolved_external_subtitles job probe ++
            resolved_subtitles_from_audio job probe).flatMap
          (fun e => external_subtitle_entry_args e.1 e.2)
        ++ chapter_args job.chapters
        ++ attachment_args job.attachments, ?_, by simp⟩
    simp only [build_mkvmerge_command, if_pos hS, clear_default_flags_enum,
      List.append_assoc]

theorem claim_c4_default_clearing_witness :
    (∃ pre suf,
      build_mkvmerge_command default_clear_both_job {} "out.mkv" no_probe =
        pre ++ ["--default-track-flag", "1:no"] ++ suf ∧ "v.mkv" ∈ suf) ∧
    (∃ pre suf,
      build_mkvmerge_command default_clear_both_job {} "out.mkv" no_probe =
        pre ++ ["--default-track-flag", "2:no"] ++ suf ∧ "v.mkv" ∈ suf) := by
  have h := claim_c4_default_clearing default_clear_both_job {} "out.mkv" no_probe
  obtain ⟨pre1, suf1, e1, m1⟩ := h.1 (by decide)
  obtain ⟨pre2, suf2, e2, m2⟩ := h.2 (by decide)
  constructor
  · refine ⟨pre1, suf1, ?_, m1⟩
    rw [e1, show ((List.enumFrom 0 default_clear_both_job.video.tracks).filter
        (fun p => decide (p.2.track_type = "audio"))).flatMap
        (fun p => ["--default-track-flag",
          toString (parse_track_id p.2 p.1) ++ ":no"]) =
      ["--default-track-flag", "1:no"] from by decide]
  · refine ⟨pre2, suf2, ?_, m2⟩
    rw [e2, show ((List.enumFrom 0 default_clear_both_job.video.tracks).filter
        (fun p => decide (p.2.track_type = "subtitle"))).flatMap
        (fun p => ["--default-track-flag",
          toString (parse_track_id p.2 p.1) ++ ":no"]) =
      ["--default-track-flag", "2:no"] from by decide]

theorem string_mk_data (s : String) : String.mk s.data = s := rfl

theorem string_data_append (s t : String) : (s ++ t).data = s.data ++ t.data := rfl

theorem quote_arg_data (s : String) : (quote_arg s).data = quote_chars s.data := by
  unfold quote_arg quote_chars needs_quote
  split_ifs <;> rfl

theorem escape_cons_quote (cs : List Char) :
    escape_quotes_chars ('"' :: cs) = '\\' :: '"' :: escape_quotes_chars cs := by
  simp [escape_quotes_chars]

theorem escape_cons_other (c : Char) (cs : List Char) (h : c ≠ '"') :
    escape_quotes_chars (c :: cs) = c :: escape_quotes_chars cs := by
  simp [escape_quotes_chars, h]

theorem escape_quotes_chars_head_ne (c : Char) (cs l : List Char) :
    (escape_quotes_chars (c :: cs) ++ l).head? ≠ some '"' := by
  by_cases hc : c = '"'
  · subst hc
    rw [escape_cons_quote]
    intro hcontra
    rw [List.cons_append, List.head?_cons, Option.some_inj] at hcontra
    exact absurd hcontra (by decide)
  · rw [escape_cons_other c cs hc]
    intro hcontra
    rw [List.cons_append, List.head?_cons, Option.some_inj] at hcontra
    exact hc hcontra

theorem tok_between_space (cur rest : List Char) :
    tokenize_chars TokMode.between cur (' ' :: rest) =
      tokenize_chars TokMode.between [] rest := by
  simp [tokenize_chars]

theorem tok_between_quote (cur rest : List Char) :
    tokenize_chars TokMode.between cur ('"' :: rest) =
      tokenize_chars TokMode.quoted [] rest := by
  simp [tokenize_chars]

theorem tok_between_other (c : Char) (cur rest : List Char)
    (h1 : c ≠ ' ') (h2 : c ≠ '"') :
    tokenize_chars TokMode.between cur (c :: rest) =
      tokenize_chars TokMode.unquoted [c] rest := by
  simp [tokenize_chars, h1, h2]

theorem tok_unquoted_space (cur rest : List Char) :
    tokenize_chars TokMode.unquoted cur (' ' :: rest) =
      cur.reverse :: tokenize_chars TokMode.between [] rest := by
  simp [tokenize_chars]

theorem tok_unquoted_other (c : Char) (cur rest : List Char)
    (h1 : c ≠ ' ') (h2 : c ≠ '"') :
    tokenize_chars TokMode.unquoted cur (c :: rest) =
      tokenize_chars TokMode.unquoted (c :: cur) rest := by
  simp [tokenize_chars, h1, h2]

theorem tok_quoted_pair (cur rest : List Char) :
    tokenize_chars TokMode.quoted cur ('\\' :: '"' :: rest) =
      tokenize_chars TokMode.quoted ('"' :: cur) rest := by
  simp [tokenize_chars]

theorem tok_quoted_close (cur rest : List Char) :
    tokenize_chars TokMode.quoted cur ('"' :: rest) =
      tokenize_chars TokMode.unquoted cur rest := by
  simp [tokenize_chars]

theorem tok_quoted_lit (c : Char) (cur rest : List Char)
    (h1 : ¬(c = '\\' ∧ rest.head? = some '"')) (h2 : c ≠ '"') :
    tokenize_chars TokMode.quoted cur (c :: rest) =
      tokenize_chars TokMode.quoted (c :: cur) rest := by
  by_cases hb : c = '\\'
  · subst hb
    have hr : rest.head? ≠ some '"' := fun hh => h1 ⟨rfl, hh⟩
    rw [show tokenize_chars TokMode.quoted cur ('\\' :: rest) =
      tokenize_chars TokMode.quotedEscape cur rest from by simp [tokenize_chars]]
    rcases rest with _ | ⟨x, xs⟩
    · simp [tokenize_chars]
    · have hx : x ≠ '"' := by simpa using hr
      by_cases hxb : x = '\\'
      · subst hxb
        simp [tokenize_chars]
      · simp [tokenize_chars, hx, hxb]
  · simp [tokenize_chars, hb, h2]

theorem tokenize_quoted_scan (a : List Char) :
    a.getLast? ≠ some '\\' → ∀ cur tail,
      tokenize_chars TokMode.quoted cur (escape_quotes_chars a ++ '"' :: tail) =
        tokenize_chars TokMode.unquoted (a.reverse ++ cur) tail := by
  induction a with
  | nil =>
    intro _ cur tail
    simp only [escape_quotes_chars, List.nil_append, List.reverse_nil]
    rw [tok_quoted_close cur tail]
  | cons c cs ih =>
    intro h cur tail
    have hlast : cs ≠ [] → cs.getLast? ≠ some '\\' := by
      intro hne
      rcases cs with _ | ⟨d, ds⟩
      · exact absurd rfl hne
      · rwa [List.getLast?_cons_cons] at h
    by_cases hc : c = '"'
    · subst hc
      rw [escape_cons_quote, List.cons_append, List.cons_append, tok_quoted_pair]
      have hcs : cs.getLast? ≠ some '\\' := by
        rcases cs with _ | ⟨d, ds⟩
        · simp
        · exact hlast (by simp)
      rw [ih hcs ('"' :: cur) tail]
      simp
    · by_cases hb : c = '\\'
      · subst hb
        rcases hcs : cs with _ | ⟨d, ds⟩
        · exfalso
          apply h
          rw [hcs]
          rfl
        · rw [← hcs, escape_cons_other _ cs hc, List.cons_append,
            tok_quoted_lit _ cur _ ?_ hc]
          · rw [ih (hlast (by rw [hcs]; simp)) _ tail]
            simp
          · intro hcontra
            rw [hcs] at hcontra
            exact escape_quotes_chars_head_ne d ds ('"' :: tail) hcontra.2
      · rw [escape_cons_other c cs hc, List.cons_append,
          tok_quoted_lit c cur _ (fun hcontra => hb hcontra.1) hc]
        have hcs : cs.getLast? ≠ some '\\' := by
          rcases cs with _ | ⟨d, ds⟩
          · simp
          · exact hlast (by simp)
        rw [ih hcs (c :: cur) tail]
        simp

theorem tokenize_unquoted_scan (a : List Char) :
    (∀ c ∈ a, c ≠ ' ' ∧ c ≠ '"') → ∀ cur tail,
      tokenize_chars TokMode.unquoted cur (a ++ tail) =
        tokenize_chars TokMode.unquoted (a.reverse ++ cur) tail := by
  induction a with
  | nil => intro _ cur tail; simp
  | cons c cs ih =>
    intro h cur tail
    have hc := h c (List.mem_cons_self c cs)
    rw [List.cons_append, tok_unquoted_other c cur _ hc.1 hc.2,
      ih (fun d hd => h d (List.mem_cons_of_mem c hd)) (c :: cur) tail]
    simp

theorem not_mem_of_contains_false {cs : List Char} {c : Char}
    (h : cs.contains c = false) : ∀ d ∈ cs, d ≠ c := by
  intro d hd he
  subst he
  rw [List.contains_eq_any_beq] at h
  simp at h
  exact h d hd rfl

theorem tokenize_one_arg (a : List Char) (h : arg_safe_chars a) (tail : List Char) :
    tokenize_chars TokMode.between [] (quote_chars a ++ tail) =
      tokenize_chars TokMode.unquoted a.reverse tail := by
  by_cases hq : needs_quote_chars a
  · rw [quote_chars, if_pos hq, List.append_assoc, List.cons_append,
      List.singleton_append, tok_between_quote,
      tokenize_quoted_scan a (h.2 hq) [] tail]
    simp
  · have hq' := hq
    unfold needs_quote_chars at hq'
    simp only [Bool.or_eq_true, not_or, Bool.not_eq_true] at hq'
    have hnc : ∀ d ∈ a, d ≠ ' ' ∧ d ≠ '"' := fun d hd =>
      ⟨not_mem_of_contains_false hq'.1.1 d hd,
       not_mem_of_contains_false hq'.1.2 d hd⟩
    obtain ⟨c, cs, rfl⟩ : ∃ c cs, a = c :: cs := by
      rcases a with _ | ⟨c, cs⟩
      · exact absurd rfl h.1
      · exact ⟨c, cs, rfl⟩
    have hc := hnc c (List.mem_cons_self c cs)
    rw [quote_chars, if_neg hq, List.cons_append,
      tok_between_other c [] _ hc.1 hc.2,
      tokenize_unquoted_scan cs
        (fun d hd => hnc d (List.mem_cons_of_mem c hd)) [c] tail]
    simp

theorem tokenize_joined_tail (l : List (List Char)) :
    (∀ a ∈ l, arg_safe_chars a) → ∀ cur,
      tokenize_chars TokMode.unquoted cur (joined_quoted_tail l) =
        cur.reverse :: l := by
  induction l with
  | nil => intro _ cur; simp [joined_quoted_tail, tokenize_chars]
  | cons a rest ih =>
    intro h cur
    rw [joined_quoted_tail, List.cons_append, tok_unquoted_space,
      tokenize_one_arg a (h a (List.mem_cons_self a rest)) (joined_quoted_tail rest),
      ih (fun b hb => h b (List.mem_cons_of_mem a hb)) a.reverse]
    simp

theorem join_parts_data (args : List String) :
    ∀ x : String, (join_parts (x :: args.map quote_arg)).data =
      x.data ++ joined_quoted_tail (args.map String.data) := by
  induction args with
  | nil => intro x; simp [join_parts, joined_quoted_tail]
  | cons a rest ih =>
    intro x
    simp only [List.map_cons, join_parts, joined_quoted_tail]
    rw [string_data_append, string_data_append, ih (quote_arg a), quote_arg_data]
    simp

theorem tokenize_join_round_trip (args : List String)
    (h : ∀ a ∈ args, arg_safe a) :
    tokenize_command (join_mkvmerge_command args) = "mkvmerge" :: args := by
  have hsafe : ∀ a ∈ args.map String.data, arg_safe_chars a := by
    intro a ha
    rw [List.mem_map] at ha
    obtain ⟨s, hs, rfl⟩ := ha
    obtain ⟨h1, h2⟩ := h s hs
    refine ⟨?_, h2⟩
    intro hnil
    exact h1 (by rw [← string_mk_data s, hnil])
  unfold tokenize_command join_mkvmerge_command
  rw [join_parts_data args "mkvmerge"]
  have hmk : quote_chars ("mkvmerge" : String).data = ("mkvmerge" : String).data := by
    decide
  rw [show ("mkvmerge" : String).data ++ joined_quoted_tail (args.map String.data) =
      quote_chars ("mkvmerge" : String).data ++
        joined_quoted_tail (args.map String.data) from by rw [hmk]]
  rw [tokenize_one_arg ("mkvmerge" : String).data
    ⟨by decide, fun hcontra => by
      rw [show needs_quote_chars ("mkvmerge" : String).data = false from by
        decide] at hcontra
      cases hcontra⟩
    (joined_quoted_tail (args.map String.data))]
  rw [tokenize_joined_tail (args.map String.data) hsafe]
  rw [List.map_cons, List.reverse_reverse, string_mk_data]
  congr 1
  rw [List.map_map]
  exact (List.map_congr_left (fun s _ => string_mk_data s)).trans (List.map_id args)

/-- C9 as amended: re-tokenizing the preview command line reproduces the
tool name followed by the exact synthesized argument list, provided every
synthesized argument is nonempty and no argument that needs quoting ends
in a backslash.  (Without that proviso the round trip fails; see the
counterexample.) -/
theorem claim_c9_round_trip (job : MuxJobRequest) (settings : MuxSettings)
    (output_path : String) (probe : MkvProbe)
    (h : ∀ a ∈ build_mkvmerge_command job settings output_path probe, arg_safe a) :
    tokenize_command (join_mkvmerge_command
        (build_mkvmerge_command job settings output_path probe)) =
      "mkvmerge" :: build_mkvmerge_command job settings output_path probe :=
  tokenize_join_round_trip (build_mkvmerge_command job settings output_path probe) h

/-- C9 counterexample: for a job whose primary path is the empty string,
re-tokenizing the shell-quoted preview command line loses that argument,
so the round trip does not reproduce the argument list passed to the
process spawn. -/
theorem claim_c9_counterexample :
    tokenize_command (join_mkvmerge_command
        (build_mkvmerge_command empty_path_job {} "out.mkv" no_probe)) ≠
      "mkvmerge" :: build_mkvmerge_command empty_path_job {} "out.mkv" no_probe := by
  decide

theorem claim_c9_round_trip_witness :
    tokenize_command (join_mkvmerge_command
        (build_mkvmerge_command round_trip_job {} "My Video (1).mkv" no_probe)) =
      "mkvmerge" :: build_mkvmerge_command round_trip_job {} "My Video (1).mkv"
        no_probe :=
  claim_c9_round_trip round_trip_job {} "My Video (1).mkv" no_probe (by decide)

end MkvBatchMux
